import Mathlib

/-!
Verification of the OpenClaw XMPP channel adapter (inbound-decision pipeline,
JID utilities, policy engine, outbound sender, connect timeout).

Strings are modelled as `List Char`.  JavaScript's `String.prototype.trim`,
`toLowerCase` (ASCII letters), `startsWith`, `includes`, `split` and the
first-occurrence splitting done by the JID parser are given explicit
executable definitions below.  All definitions are translated from the
TypeScript source; the external `@xmpp/jid` parser (a dependency, not part of
the repository sources) is modelled from the specification's JID data model
(`local@domain/resource`, bare JID `local@domain`, domain case-insensitive,
parse failure exactly when the domain part is empty).
-/

namespace OpenclawXmpp

/-- Character strings of the model. -/
abbrev Str := List Char

/-- ASCII lowercasing of one character, as JavaScript `toLowerCase` acts on
the ASCII letters used by the adapter. -/
def jsCharLower (c : Char) : Char :=
  match c with
  | 'A' => 'a' | 'B' => 'b' | 'C' => 'c' | 'D' => 'd' | 'E' => 'e' | 'F' => 'f'
  | 'G' => 'g' | 'H' => 'h' | 'I' => 'i' | 'J' => 'j' | 'K' => 'k' | 'L' => 'l'
  | 'M' => 'm' | 'N' => 'n' | 'O' => 'o' | 'P' => 'p' | 'Q' => 'q' | 'R' => 'r'
  | 'S' => 's' | 'T' => 't' | 'U' => 'u' | 'V' => 'v' | 'W' => 'w' | 'X' => 'x'
  | 'Y' => 'y' | 'Z' => 'z'
  | other => other

/-- JavaScript `toLowerCase` on a string. -/
def jsToLower (l : Str) : Str := l.map jsCharLower

/-- JavaScript `trim`: drop whitespace from both ends. -/
def jsTrim (l : Str) : Str :=
  (l.dropWhile Char.isWhitespace).rdropWhile Char.isWhitespace

/-- JavaScript `startsWith`. -/
def jsStartsWith (pre l : Str) : Bool := pre.isPrefixOf l

/-- JavaScript `includes` (substring containment): the pattern is a prefix
of some suffix. -/
def jsIncludes (pat : Str) : Str → Bool
  | [] => pat.isPrefixOf []
  | c :: rest => pat.isPrefixOf (c :: rest) || jsIncludes pat rest

/-- Split a string at the first occurrence of `sep`: the part before it and,
when `sep` occurs, the part after it. -/
def splitAtFirst (sep : Char) : Str → Str × Option Str
  | [] => ([], none)
  | c :: rest =>
    if c = sep then ([], some rest)
    else
      let r := splitAtFirst sep rest
      (c :: r.1, r.2)

/-- JavaScript `split(sep)` producing the full list of segments. -/
def jsSplit (sep : Char) : Str → List Str
  | [] => [[]]
  | c :: rest =>
    match jsSplit sep rest with
    | [] => [[]]
    | h :: t => if c = sep then [] :: h :: t else (c :: h) :: t

/-- Insertion into a JavaScript `Set` (insertion order, no duplicates). -/
def addUnique (l : List Str) (x : Str) : List Str :=
  if l.contains x then l else l ++ [x]

/-- Does `c` occur at an interior position of the list (neither first nor
last)?  Used to model the regular expression that demands a character with
nonempty material on both sides. -/
def hasMidAux (c : Char) : Str → Bool
  | x :: y :: rest => (x = c) || hasMidAux c (y :: rest)
  | _ => false

/-- Interior-occurrence test: skip the head, then look for `c` among the
characters that still have a successor. -/
def hasMidChar (c : Char) : Str → Bool
  | [] => false
  | _ :: rest => hasMidAux c rest

/-! ## JID model (modelled from the spec's JID data model for `@xmpp/jid`) -/

/-- Parsed JID: `localPart@domain/resource` with possibly empty local part
and resource.  The domain is stored lowercased. -/
structure Jid where
  localPart : Str
  domain : Str
  resource : Str
  deriving Repr, DecidableEq

/-- Modelled from the spec: the external `@xmpp/jid` parse used by the JID
utilities (the library is not part of the repository sources).  The resource
is everything after the first `/`; the local part is everything before the
first `@` of the remaining text; the domain is lowercased; parsing fails
(the library throws) exactly when the domain comes out empty. -/
def parseJidModel (s : Str) : Option Jid :=
  let sr := splitAtFirst '/' s
  let bare := sr.1
  let la := splitAtFirst '@' bare
  let localPart : Str := match la.2 with | some _ => la.1 | none => []
  let domainPre : Str := match la.2 with | some d => d | none => la.1
  if domainPre = [] then none
  else some { localPart := localPart, domain := jsToLower domainPre,
              resource := sr.2.getD [] }

/-- Rendering of `jid.bare().toString()`: `local@domain`, or just the domain
when the local part is empty. -/
def bareString (j : Jid) : Str :=
  if j.localPart = [] then j.domain else j.localPart ++ '@' :: j.domain

/-- From `normalize.ts`: a JID is a MUC room when its domain contains
`conference` or `muc`. -/
def isRoomJid (jidString : Str) : Bool :=
  match parseJidModel jidString with
  | none => false
  | some parsed =>
    let domain := jsToLower parsed.domain
    jsIncludes "conference".toList domain || jsIncludes "muc".toList domain

/-- From `normalize.ts`: normalize a bare JID (strip resource); on parse
failure fall back to the trimmed input. -/
def normalizeXmppBareJid (jidString : Str) : Str :=
  match parseJidModel jidString with
  | some parsed => bareString parsed
  | none => jsTrim jidString

/-- The regular expression `^[^\s]+@[^\s]+$` of `normalize.ts`: every
character is non-whitespace and some `@` has nonempty material on both
sides. -/
def xmppTargetPattern (l : Str) : Bool :=
  l.all (fun c => !c.isWhitespace) && hasMidChar '@' l

/-- From `normalize.ts`: check whether a string looks like a valid JID. -/
def looksLikeXmppJid (raw : Str) : Bool :=
  let trimmed := jsTrim raw
  if trimmed = [] then false
  else if !xmppTargetPattern trimmed then false
  else (parseJidModel trimmed).isSome

/-- Final section of `normalizeXmppJid`: reject an empty or non-JID-looking
target, else parse it and return the bare JID. -/
def normalizeXmppFinish (t : Str) : Option Str :=
  if t = [] then none
  else if !looksLikeXmppJid t then none
  else match parseJidModel t with
    | some parsed => some (bareString parsed)
    | none => none

/-- From `normalize.ts`: normalize a JID for messaging targets.  The three
prefix tests are all made against the lowercasing of the original trimmed
input (so at most one prefix is stripped), while the slice is taken from the
current target. -/
def normalizeXmppJid (raw : Str) : Option Str :=
  let trimmed := jsTrim raw
  if trimmed = [] then none
  else
    let lowered := jsToLower trimmed
    let t1 := if jsStartsWith "xmpp:".toList lowered
      then jsTrim (trimmed.drop 5) else trimmed
    let t2 := if jsStartsWith "room:".toList lowered
      then jsTrim (t1.drop 5) else t1
    let t3 := if jsStartsWith "user:".toList lowered
      then jsTrim (t2.drop 5) else t2
    normalizeXmppFinish t3

/-- From `normalize.ts`: `normalizeXmppMessagingTarget` is an alias of
`normalizeXmppJid`. -/
def normalizeXmppMessagingTarget (raw : Str) : Option Str := normalizeXmppJid raw

/-- From `normalize.ts`: normalize one allowlist entry.  Here the prefix
tests are made against the current (already stripped) value, so several
prefixes can be stripped in the order `xmpp:`, `user:`, `room:`. -/
def normalizeXmppAllowEntry (raw : Str) : Str :=
  let v0 := jsToLower (jsTrim raw)
  if v0 = [] then []
  else
    let v1 := if jsStartsWith "xmpp:".toList v0 then v0.drop 5 else v0
    let v2 := if jsStartsWith "user:".toList v1 then v1.drop 5 else v1
    let v3 := if jsStartsWith "room:".toList v2 then v2.drop 5 else v2
    let v4 := jsTrim v3
    if v4 ≠ [] && v4 ≠ ['*'] then
      match parseJidModel v4 with
      | some parsed => jsToLower (bareString parsed)
      | none => v4
    else v4

/-- From `normalize.ts`: normalize a whole allowlist, dropping entries that
normalize to the empty string. -/
def normalizeXmppAllowlist (entries : List Str) : List Str :=
  (entries.map normalizeXmppAllowEntry).filter (fun e => e ≠ [])

/-! ## Data model: inbound messages, room configuration, policies -/

/-- From `types.ts`: the inbound message value produced by the monitor. -/
structure XmppInboundMessage where
  messageId : Str
  target : Str
  senderJid : Str
  senderBareJid : Str
  senderNickname : Option Str := none
  senderResource : Option Str := none
  text : Str
  timestamp : Int
  isGroup : Bool
  stanzaId : Option Str := none
  deriving Repr, DecidableEq

/-- From `types.ts`: per-room configuration (the fields the policy engine
reads).  `allowFrom` absent and `allowFrom` empty are interchangeable for
the policy engine, so it is modelled as a plain list. -/
structure XmppRoomConfig where
  requireMention : Option Bool := none
  enabled : Option Bool := none
  allowFrom : List Str := []
  systemPrompt : Option Str := none
  deriving Repr, DecidableEq

/-- DM policy enum; `dmOpen` stands for the source's `"open"` (a reserved
word in Lean). -/
inductive DmPolicy where
  | pairing | allowlist | dmOpen | disabled
  deriving Repr, DecidableEq

/-- Group policy enum; `gOpen` stands for the source's `"open"`. -/
inductive GroupPolicy where
  | allowlist | gOpen | disabled
  deriving Repr, DecidableEq

/-- The `rooms` record of an account config: an association list from room
key (or `"*"`) to room config, with unique keys as in a JS object. -/
abbrev RoomsMap := List (Str × XmppRoomConfig)

/-- JavaScript `rooms[key]` object indexing. -/
def roomsGet (rooms : RoomsMap) (k : Str) : Option XmppRoomConfig :=
  (rooms.find? (fun p => p.1 = k)).map (fun p => p.2)

/-- `Object.keys(rooms).find(key => key.toLowerCase() === targetLower)`. -/
def roomsFindKeyCI (rooms : RoomsMap) (targetLower : Str) : Option Str :=
  (rooms.find? (fun p => jsToLower p.1 = targetLower)).map (fun p => p.1)

/-- From `policy.ts`: result of `resolveXmppRoomMatch`. -/
structure XmppRoomMatch where
  allowed : Bool
  roomConfig : Option XmppRoomConfig := none
  wildcardConfig : Option XmppRoomConfig := none
  hasConfiguredRooms : Bool
  deriving Repr, DecidableEq

/-- From `policy.ts`: resolve the room-configuration match — exact key
first, then case-insensitive key comparison, then the `"*"` wildcard. -/
def resolveXmppRoomMatch (rooms : RoomsMap) (target : Str) : XmppRoomMatch :=
  let hasConfiguredRooms := decide (rooms ≠ [])
  match roomsGet rooms target with
  | some direct =>
    { allowed := true, roomConfig := some direct,
      wildcardConfig := roomsGet rooms ['*'], hasConfiguredRooms }
  | none =>
    let targetLower := jsToLower target
    let viaKey : Option XmppRoomMatch :=
      match roomsFindKeyCI rooms targetLower with
      | some key =>
        (roomsGet rooms key).map (fun matched =>
          { allowed := true, roomConfig := some matched,
            wildcardConfig := roomsGet rooms ['*'], hasConfiguredRooms })
      | none => none
    match viaKey with
    | some r => r
    | none =>
      match roomsGet rooms ['*'] with
      | some wildcard =>
        { allowed := true, wildcardConfig := some wildcard, hasConfiguredRooms }
      | none => { allowed := false, hasConfiguredRooms }

/-- From `policy.ts`: result of `resolveXmppGroupAccessGate`. -/
structure XmppGroupAccessGate where
  allowed : Bool
  reason : Str
  deriving Repr, DecidableEq

/-- JavaScript `cfg?.enabled === false` on an optional room config. -/
def roomEnabledIsFalse (cfg : Option XmppRoomConfig) : Bool :=
  match cfg with
  | some c => c.enabled = some false
  | none => false

/-- From `policy.ts`: the group access gate. -/
def resolveXmppGroupAccessGate (groupPolicy : Option GroupPolicy)
    (roomMatch : XmppRoomMatch) : XmppGroupAccessGate :=
  let policy := groupPolicy.getD .allowlist
  if policy = .disabled then
    { allowed := false, reason := "groupPolicy=disabled".toList }
  else if policy = .allowlist && !roomMatch.hasConfiguredRooms then
    { allowed := false,
      reason := "groupPolicy=allowlist and no rooms configured".toList }
  else if policy = .allowlist && !roomMatch.allowed then
    { allowed := false, reason := "not allowlisted".toList }
  else if roomEnabledIsFalse roomMatch.roomConfig
      || roomEnabledIsFalse roomMatch.wildcardConfig then
    { allowed := false, reason := "disabled".toList }
  else
    { allowed := true,
      reason := if policy = .gOpen then "open".toList else "allowlisted".toList }

/-- From `policy.ts`: whether a mention is required — room config first,
then wildcard config, defaulting to `true`. -/
def resolveXmppRequireMention (roomConfig wildcardConfig : Option XmppRoomConfig) :
    Bool :=
  match roomConfig.bind (fun c => c.requireMention) with
  | some b => b
  | none =>
    match wildcardConfig.bind (fun c => c.requireMention) with
    | some b => b
    | none => true

/-- From `policy.ts`: result of `resolveXmppMentionGate`. -/
structure XmppMentionGateResult where
  shouldSkip : Bool
  reason : Str
  deriving Repr, DecidableEq

/-- From `policy.ts`: the mention gate. -/
def resolveXmppMentionGate (isGroup requireMention wasMentioned
    hasControlCommand allowTextCommands commandAuthorized : Bool) :
    XmppMentionGateResult :=
  if !isGroup then { shouldSkip := false, reason := "direct".toList }
  else if !requireMention then
    { shouldSkip := false, reason := "mention-not-required".toList }
  else if wasMentioned then { shouldSkip := false, reason := "mentioned".toList }
  else if hasControlCommand && allowTextCommands && commandAuthorized then
    { shouldSkip := false, reason := "authorized-command".toList }
  else { shouldSkip := true, reason := "missing-mention".toList }

/-- From `normalize.ts`: allowlist matching candidates built from an inbound
message (a JS `Set`, insertion-ordered). -/
def buildXmppAllowlistCandidates (m : XmppInboundMessage) : List Str :=
  let s0 : List Str := []
  let s1 := if m.senderBareJid ≠ [] then addUnique s0 (jsToLower m.senderBareJid) else s0
  let s2 := if m.senderJid ≠ [] then addUnique s1 (jsToLower m.senderJid) else s1
  if m.isGroup then
    match m.senderNickname with
    | some n => if n ≠ [] then addUnique s2 (jsToLower n) else s2
    | none => s2
  else s2

/-- From `normalize.ts`: result of `resolveXmppAllowlistMatch`. -/
structure XmppAllowMatch where
  allowed : Bool
  source : Option Str := none
  deriving Repr, DecidableEq

/-- From `normalize.ts`: match a message's candidates against an allowlist;
`"*"` matches anyone. -/
def resolveXmppAllowlistMatch (allowFrom : List Str) (m : XmppInboundMessage) :
    XmppAllowMatch :=
  let set := (allowFrom.map (fun e => jsToLower (jsTrim e))).filter (fun e => e ≠ [])
  if set.contains ['*'] then
    { allowed := true, source := some "wildcard".toList }
  else
    match (buildXmppAllowlistCandidates m).find? (fun c => set.contains c) with
    | some c => { allowed := true, source := some c }
    | none => { allowed := false }

/-- From `policy.ts`: whether a group sender is allowed — per-room allowlist
first, then the account-level one, else allowed only under the open
policy. -/
def resolveXmppGroupSenderAllowed (groupPolicy : Option GroupPolicy)
    (m : XmppInboundMessage) (outerAllowFrom innerAllowFrom : List Str) : Bool :=
  let policy := groupPolicy.getD .allowlist
  let inner := normalizeXmppAllowlist innerAllowFrom
  let outer := normalizeXmppAllowlist outerAllowFrom
  if inner ≠ [] then (resolveXmppAllowlistMatch inner m).allowed
  else if outer ≠ [] then (resolveXmppAllowlistMatch outer m).allowed
  else policy = .gOpen

/-! ## Inbound target resolution and the monitor's message handler -/

/-- From `monitor.ts`: the fields of the inbound message derived from a
stanza's `from` and `type`. -/
structure XmppInboundTarget where
  isGroup : Bool
  target : Str
  senderJid : Str
  senderBareJid : Str
  senderNickname : Option Str := none
  senderResource : Option Str := none
  deriving Repr, DecidableEq

/-- From `monitor.ts`: `resolveXmppInboundTarget`.  Groupchat splits the
`from` on `/` into room JID and nickname; direct messages reduce `from` to a
bare JID. -/
def resolveXmppInboundTarget (fromJid typ : Str) : XmppInboundTarget :=
  let isGroup := typ = "groupchat".toList
  if isGroup then
    let parts := jsSplit '/' fromJid
    let roomJid := parts.getD 0 []
    let nickname := parts.get? 1
    { isGroup := true, target := roomJid, senderJid := fromJid,
      senderBareJid := roomJid, senderNickname := nickname }
  else
    let bare := normalizeXmppBareJid fromJid
    let resource := if fromJid.contains '/' then (jsSplit '/' fromJid).get? 1 else none
    { isGroup := false, target := bare, senderJid := fromJid,
      senderBareJid := bare, senderResource := resource }

/-- From `client.ts`: the message event surfaced by the client (only events
with a nonempty body reach the monitor). -/
structure XmppMessageEvent where
  fromJid : Str
  toJid : Str
  body : Str
  typ : Str
  id : Option Str := none
  delay : Option Int := none
  deriving Repr, DecidableEq

/-- Outcome of the monitor's `onMessage` handler: whether inbound activity
was recorded and, when the event survived the self-message check, the
message value handed to the inbound pipeline. -/
structure XmppMonitorStep where
  recordedInbound : Bool
  pipelineMessage : Option XmppInboundMessage
  deriving Repr, DecidableEq

/-- From `monitor.ts`: the `onMessage` handler of `monitorXmppProvider`.
`now` stands for `Date.now()` and `freshId` for `makeXmppMessageId()` (a
random UUID).  A self-message (sender bare JID equal to the account bare
JID) returns before recording activity or invoking the pipeline. -/
def monitorOnXmppMessage (accountBareJid : Str) (now : Int) (freshId : Str)
    (event : XmppMessageEvent) : XmppMonitorStep :=
  let fromBareJid := normalizeXmppBareJid event.fromJid
  if fromBareJid = accountBareJid then
    { recordedInbound := false, pipelineMessage := none }
  else
    let t := resolveXmppInboundTarget event.fromJid event.typ
    let timestamp := match event.delay with
      | some d => d
      | none => now
    let message : XmppInboundMessage := {
      messageId := match event.id with
        | some i => if i ≠ [] then i else freshId
        | none => freshId
      target := t.target
      senderJid := t.senderJid
      senderBareJid := t.senderBareJid
      senderNickname := t.senderNickname
      senderResource := t.senderResource
      text := event.body
      timestamp := timestamp
      isGroup := t.isGroup
      stanzaId := event.id }
    { recordedInbound := true, pipelineMessage := some message }

/-! ## The explicit-mention regular expression of `inbound.ts` -/

/-- JavaScript `\w` word characters: ASCII letters, digits, underscore. -/
def isWordChar (c : Char) : Bool := c.isAlpha || c.isDigit || c = '_'

/-- Word-character test on an optional neighbouring character (`none` at the
ends of the text counts as a non-word character). -/
def isWordOpt (o : Option Char) : Bool :=
  match o with
  | some c => isWordChar c
  | none => false

/-- A `\b` word boundary between two (optional) neighbouring characters:
exactly one side is a word character. -/
def wordBoundary (a b : Option Char) : Bool := isWordOpt a != isWordOpt b

/-- Case-insensitive match of the literal pattern at the head of `t`,
together with the trailing `\b`: the lowered pattern is a prefix of the
lowered text and a word boundary separates the pattern's last character from
the first character after the match.  (The regex's optional `[:,]?` suffix
never constrains the match.) -/
def wordMatchHere (pat t : Str) : Bool :=
  jsStartsWith (jsToLower pat) (jsToLower t)
    && wordBoundary pat.getLast? (t.drop pat.length).head?

/-- Test of `new RegExp ("\\b" ++ escaped pat ++ "\\b[:,]?", "i")` on `text`:
somewhere in the text the literal pattern occurs case-insensitively with a
word boundary on each side.  `prev` is the character just before the current
position. -/
def wordBoundarySearch (pat : Str) : Option Char → Str → Bool
  | prev, t =>
    (wordBoundary prev pat.head? && wordMatchHere pat t)
      || match t with
        | [] => false
        | c :: rest => wordBoundarySearch pat (some c) rest

/-- The explicit-mention test of `inbound.ts`: the account's localpart as a
whole word, case-insensitively, in the raw body. -/
def explicitMentionTest (botLocalpart rawBody : Str) : Bool :=
  wordBoundarySearch botLocalpart none rawBody

/-! ## The inbound pipeline of `inbound.ts` (`handleXmppInbound`) -/

/-- External inputs of `handleXmppInbound` beyond the message: account and
config values, the pairing-store allowlist, and oracles for the host-provided
helpers (`shouldHandleTextCommands`, `hasControlCommand`,
`matchesMentionPatterns`, `resolveControlCommandGate`, delivery success). -/
structure XmppPipelineEnv where
  dmPolicy : Option DmPolicy := none
  groupPolicy : Option GroupPolicy := none
  defaultGroupPolicy : Option GroupPolicy := none
  configAllowFrom : List Str := []
  configGroupAllowFrom : List Str := []
  storeAllowFrom : List Str := []
  rooms : RoomsMap := []
  accountJid : Str
  allowTextCommands : Bool := false
  hasControlCommandB : Bool := false
  mentionPatternHit : Bool := false
  commandShouldBlock : Bool := false
  commandAuthorizedB : Bool := false
  replySendOk : Bool := true

/-- One return point of `handleXmppInbound`, in source order.  `dmMissDrop`
carries the pairing-store upsert id, the target of the attempted pairing
reply (when the store reported `created = true`) and whether that reply was
delivered; `dispatched` means the message reached agent dispatch. -/
inductive XmppPipelineOutcome where
  | emptyBody
  | groupAccessDrop (reason : Str)
  | groupSenderDrop
  | dmDisabledDrop
  | dmMissDrop (upsertId : Option Str) (replyTarget : Option Str)
      (replyDelivered : Bool)
  | commandBlockDrop
  | mentionDrop (reason : Str)
  | dispatched (wasMentioned commandAuthorized : Bool)
  deriving Repr, DecidableEq

/-- From `inbound.ts`: the decision pipeline of `handleXmppInbound`,
together with the pairing-request store (modelled from the spec:
`upsertPairingRequest` is an idempotent upsert keyed by the lowercased bare
JID for channel `xmpp`, reporting `created = true` exactly when the id was
absent).  Each early `return` of the source is one guard of the if-chain, in
source order: empty body, group access gate, group sender gate, DM policy
`disabled`, DM allowlist miss under `pairing` (upsert, reply only when
created), DM allowlist miss under `allowlist` (silent), unauthorized group
control command, mention gate; otherwise the message is dispatched.  Returns
the outcome and the updated pairing-request store. -/
def handleXmppInbound (env : XmppPipelineEnv) (m : XmppInboundMessage)
    (pairingRequests : List Str) : XmppPipelineOutcome × List Str :=
  let rawBody := jsTrim m.text
  let dmPolicy := env.dmPolicy.getD .pairing
  let groupPolicy := env.groupPolicy.getD (env.defaultGroupPolicy.getD .allowlist)
  let configAllowFrom := normalizeXmppAllowlist env.configAllowFrom
  let configGroupAllowFrom := normalizeXmppAllowlist env.configGroupAllowFrom
  let storeAllowList := normalizeXmppAllowlist env.storeAllowFrom
  let roomMatch := resolveXmppRoomMatch env.rooms m.target
  let groupAccess := resolveXmppGroupAccessGate (some groupPolicy) roomMatch
  let directRoomAllowFrom := normalizeXmppAllowlist
    ((roomMatch.roomConfig.map (fun c => c.allowFrom)).getD [])
  let wildcardRoomAllowFrom := normalizeXmppAllowlist
    ((roomMatch.wildcardConfig.map (fun c => c.allowFrom)).getD [])
  let roomAllowFrom := if directRoomAllowFrom ≠ [] then directRoomAllowFrom
    else wildcardRoomAllowFrom
  let effectiveAllowFrom :=
    (configAllowFrom ++ storeAllowList).filter (fun e => e ≠ [])
  let effectiveGroupAllowFrom :=
    (configGroupAllowFrom ++ storeAllowList).filter (fun e => e ≠ [])
  let dmAllowed := (resolveXmppAllowlistMatch effectiveAllowFrom m).allowed
  let botLocalpart := (splitAtFirst '@' env.accountJid).1
  let wasMentioned := env.mentionPatternHit
    || (botLocalpart ≠ [] && explicitMentionTest botLocalpart rawBody)
  let requireMention := if m.isGroup then
      resolveXmppRequireMention roomMatch.roomConfig roomMatch.wildcardConfig
    else false
  let gate := resolveXmppMentionGate m.isGroup requireMention wasMentioned
    env.hasControlCommandB env.allowTextCommands env.commandAuthorizedB
  let upsertId := jsToLower m.senderBareJid
  let created := !pairingRequests.contains upsertId
  if rawBody = [] then (.emptyBody, pairingRequests)
  else if m.isGroup = true ∧ groupAccess.allowed = false then
    (.groupAccessDrop groupAccess.reason, pairingRequests)
  else if m.isGroup = true ∧ resolveXmppGroupSenderAllowed (some groupPolicy) m
      effectiveGroupAllowFrom roomAllowFrom = false then
    (.groupSenderDrop, pairingRequests)
  else if m.isGroup = false ∧ dmPolicy = .disabled then
    (.dmDisabledDrop, pairingRequests)
  else if m.isGroup = false ∧ dmPolicy = .pairing ∧ dmAllowed = false then
    (.dmMissDrop (some upsertId)
      (if created then some m.senderBareJid else none)
      (created && env.replySendOk),
     if created then pairingRequests ++ [upsertId] else pairingRequests)
  else if m.isGroup = false ∧ dmPolicy = .allowlist ∧ dmAllowed = false then
    (.dmMissDrop none none false, pairingRequests)
  else if m.isGroup = true ∧ env.commandShouldBlock = true then
    (.commandBlockDrop, pairingRequests)
  else if gate.shouldSkip then (.mentionDrop gate.reason, pairingRequests)
  else (.dispatched wasMentioned env.commandAuthorizedB, pairingRequests)

/-! ## Outbound sender (`send.ts`) and reply delivery (`inbound.ts`) -/

/-- Stanza message type chosen for an outbound message. -/
inductive XmppMessageType where
  | chat | groupchat
  deriving Repr, DecidableEq

/-- From `send.ts`: `resolveTarget` — normalize the `to` argument, then the
`target` option, else fail with `Invalid XMPP target`. -/
def resolveTarget (toArg : Str) (optsTarget : Option Str) : Except Str Str :=
  match normalizeXmppMessagingTarget toArg with
  | some t => .ok t
  | none =>
    match normalizeXmppMessagingTarget (optsTarget.getD []) with
    | some t => .ok t
    | none => .error ("Invalid XMPP target: ".toList ++ toArg)

/-- The send resolved by `sendMessageXmpp`: target, stanza type, payload. -/
structure SendPlan where
  target : Str
  messageType : XmppMessageType
  payload : Str
  deriving Repr, DecidableEq

/-- From `send.ts`: the pure core of `sendMessageXmpp`.  `convert` is an
oracle for the host-provided `convertMarkdownTables` (with the resolved
table mode).  A `replyTo` id appends the textual `[reply:<id>]` marker; the
message type is `groupchat` exactly when `isRoomJid` holds of the resolved
target. -/
def sendMessageXmppPlan (convert : Str → Str) (toArg text : Str)
    (replyTo optsTarget : Option Str) : Except Str SendPlan :=
  match resolveTarget toArg optsTarget with
  | .error e => .error e
  | .ok target =>
    let prepared := convert (jsTrim text)
    let payload := match replyTo with
      | some r => prepared ++ "\n\n[reply:".toList ++ r ++ "]".toList
      | none => prepared
    if jsTrim payload = [] then
      .error "Message must be non-empty for XMPP sends".toList
    else
      .ok { target, payload,
            messageType := if isRoomJid target then .groupchat else .chat }

/-- From `inbound.ts` (`deliverXmppReply`): the message type used on the
live-client path — `groupchat` exactly when the target contains the
substring `@conference.` or `@muc.`. -/
def deliverXmppReplyMessageType (target : Str) : XmppMessageType :=
  if jsIncludes "@conference.".toList target
      || jsIncludes "@muc.".toList target then .groupchat
  else .chat

/-! ## Connect timeout (`client.ts` and `probe.ts`) -/

/-- From `client.ts`: `options.connectTimeoutMs || 15000` (JavaScript `||`
treats `0` as absent). -/
def resolveConnectTimeoutMs (o : Option Int) : Int :=
  match o with
  | some v => if v = 0 then 15000 else v
  | none => 15000

/-- From `probe.ts`: `opts?.timeoutMs ?? 8000`. -/
def probeConnectTimeoutMs (o : Option Int) : Int := o.getD 8000

/-- Result of one connect attempt: the caller-visible outcome (`none` when
the await never settles), whether `stop` was invoked on the underlying
client during the attempt, and how many times `start` was called. -/
structure ConnectAttemptResult where
  outcome : Option (Except Str Unit)
  stopInvoked : Bool
  startCalls : Nat
  deriving Repr

/-- From `client.ts`: the connect flow of `connectXmppClient` around
`xmpp.start()`.  `startSettlesAt` abstracts the time at which the pending
start would settle (`none` = never).  With a positive timeout the start is
raced against a timer that only rejects with `XMPP connection timeout`; no
`stop` is issued on the timeout path — `stop` is triggered solely by the
external abort signal — and `start` is called exactly once. -/
def connectXmppAttempt (connectTimeoutMs : Option Int)
    (startSettlesAt : Option Int) (abortFired : Bool) : ConnectAttemptResult :=
  let timeoutMs := resolveConnectTimeoutMs connectTimeoutMs
  let outcome : Option (Except Str Unit) :=
    if timeoutMs > 0 then
      match startSettlesAt with
      | some t =>
        if t < timeoutMs then some (.ok ())
        else some (.error "XMPP connection timeout".toList)
      | none => some (.error "XMPP connection timeout".toList)
    else
      match startSettlesAt with
      | some _ => some (.ok ())
      | none => none
  { outcome, stopInvoked := abortFired, startCalls := 1 }

/-! ## Supporting lemmas -/

theorem jsCharLower_cases (c : Char) :
    jsCharLower c = c ∨ ('a' ≤ jsCharLower c ∧ jsCharLower c ≤ 'z') := by
  unfold jsCharLower; split
  all_goals first
    | (left; rfl)
    | (right; exact ⟨by decide, by decide⟩)

theorem jsCharLower_eq_self_of_lower {c : Char} (h1 : 'a' ≤ c) (h2 : c ≤ 'z') :
    jsCharLower c = c := by
  unfold jsCharLower; split
  all_goals first
    | rfl
    | (exact absurd h1 (by decide))
    | (exact absurd h2 (by decide))

theorem jsCharLower_idem (c : Char) :
    jsCharLower (jsCharLower c) = jsCharLower c := by
  rcases jsCharLower_cases c with h | ⟨h1, h2⟩
  · rw [h]; exact h
  · exact jsCharLower_eq_self_of_lower h1 h2

theorem jsCharLower_eq_at_iff (c : Char) : jsCharLower c = '@' ↔ c = '@' := by
  unfold jsCharLower; split
  all_goals first | decide | exact Iff.rfl

theorem jsCharLower_eq_slash_iff (c : Char) : jsCharLower c = '/' ↔ c = '/' := by
  unfold jsCharLower; split
  all_goals first | decide | exact Iff.rfl

theorem jsCharLower_isWhitespace (c : Char) :
    (jsCharLower c).isWhitespace = c.isWhitespace := by
  unfold jsCharLower; split
  all_goals first | decide | rfl

theorem mem_at_jsToLower {l : Str} : '@' ∈ jsToLower l ↔ '@' ∈ l := by
  simp only [jsToLower, List.mem_map]
  constructor
  · rintro ⟨a, ha, he⟩
    rwa [← (jsCharLower_eq_at_iff a).mp he]
  · intro h
    exact ⟨'@', h, rfl⟩

theorem mem_slash_jsToLower {l : Str} : '/' ∈ jsToLower l ↔ '/' ∈ l := by
  simp only [jsToLower, List.mem_map]
  constructor
  · rintro ⟨a, ha, he⟩
    rwa [← (jsCharLower_eq_slash_iff a).mp he]
  · intro h
    exact ⟨'/', h, rfl⟩

theorem jsToLower_idem (l : Str) : jsToLower (jsToLower l) = jsToLower l := by
  simp only [jsToLower, List.map_map]
  exact List.map_congr_left (fun a _ => jsCharLower_idem a)

theorem jsToLower_all_nonWs {l : Str}
    (h : l.all (fun c => !c.isWhitespace) = true) :
    (jsToLower l).all (fun c => !c.isWhitespace) = true := by
  simp only [jsToLower, List.all_map, List.all_eq_true] at *
  intro a ha
  simpa [Function.comp, jsCharLower_isWhitespace] using h a ha

theorem jsTrim_eq_self {l : Str}
    (h : l.all (fun c => !c.isWhitespace) = true) : jsTrim l = l := by
  have h' : ∀ x ∈ l, x.isWhitespace = false := by
    simpa [List.all_eq_true, Bool.not_eq_true'] using h
  unfold jsTrim
  have h1 : l.dropWhile Char.isWhitespace = l := by
    rw [List.dropWhile_eq_self_iff]
    intro hl
    have hm := h' _ (List.get_mem l 0 hl)
    simpa using hm
  rw [h1, List.rdropWhile_eq_self_iff]
  intro hl
  simp [h' _ (List.getLast_mem hl)]

theorem jsTrim_idem (l : Str) : jsTrim (jsTrim l) = jsTrim l := by
  unfold jsTrim
  set m := l.dropWhile Char.isWhitespace with hm
  have hdw : (m.rdropWhile Char.isWhitespace).dropWhile Char.isWhitespace
      = m.rdropWhile Char.isWhitespace := by
    cases hr : m.rdropWhile Char.isWhitespace with
    | nil => simp
    | cons x r' =>
      have hpre : m.rdropWhile Char.isWhitespace <+: m :=
        List.rdropWhile_prefix _ _
      rw [hr] at hpre
      obtain ⟨t, ht⟩ := hpre
      have hx : m.head? = some x := by rw [← ht]; rfl
      have hxf : Char.isWhitespace x = false := by
        have h2 := List.head?_dropWhile_not Char.isWhitespace l
        rw [← hm, hx] at h2
        exact h2
      rw [List.dropWhile_cons_of_neg]
      simp [hxf]
  rw [hdw]
  exact List.rdropWhile_idempotent _ _

theorem splitAtFirst_none {sep : Char} {l pre : Str}
    (h : splitAtFirst sep l = (pre, none)) : pre = l ∧ sep ∉ l := by
  induction l generalizing pre with
  | nil =>
    simp only [splitAtFirst] at h
    cases h
    simp
  | cons c rest ih =>
    simp only [splitAtFirst] at h
    by_cases hc : c = sep
    · simp [hc] at h
    · rw [if_neg hc] at h
      cases hp : splitAtFirst sep rest with
      | mk p o =>
        rw [hp] at h
        cases h
        obtain ⟨h1, h2⟩ := ih hp
        subst h1
        exact ⟨rfl, by simp [hc, h2, Ne.symm]⟩

theorem splitAtFirst_some {sep : Char} {l pre post : Str}
    (h : splitAtFirst sep l = (pre, some post)) :
    l = pre ++ sep :: post ∧ sep ∉ pre := by
  induction l generalizing pre with
  | nil => simp [splitAtFirst] at h
  | cons c rest ih =>
    simp only [splitAtFirst] at h
    by_cases hc : c = sep
    · rw [if_pos hc] at h
      cases h
      simp [hc]
    · rw [if_neg hc] at h
      cases hp : splitAtFirst sep rest with
      | mk p o =>
        rw [hp] at h
        cases h
        obtain ⟨h1, h2⟩ := ih hp
        exact ⟨by rw [h1]; rfl, by simp [hc, h2, Ne.symm]⟩

theorem splitAtFirst_of_not_mem {sep : Char} {l : Str} (h : sep ∉ l) :
    splitAtFirst sep l = (l, none) := by
  induction l with
  | nil => rfl
  | cons c rest ih =>
    have hc : c ≠ sep := by
      intro he
      exact h (by simp [he])
    simp only [splitAtFirst, if_neg hc]
    rw [ih (fun hm => h (List.mem_cons_of_mem _ hm))]

theorem splitAtFirst_append_cons {sep : Char} {a b : Str} (h : sep ∉ a) :
    splitAtFirst sep (a ++ sep :: b) = (a, some b) := by
  induction a with
  | nil => simp [splitAtFirst]
  | cons c rest ih =>
    have hc : c ≠ sep := by
      intro he
      exact h (by simp [he])
    have ih' := ih (fun hm => h (List.mem_cons_of_mem _ hm))
    show splitAtFirst sep (c :: (rest ++ sep :: b)) = (c :: rest, some b)
    unfold splitAtFirst
    rw [if_neg hc, ih']

theorem hasMidAux_append {c : Char} (a : Str) {b : Str} (hb : b ≠ []) :
    hasMidAux c (a ++ c :: b) = true := by
  induction a with
  | nil =>
    cases b with
    | nil => exact absurd rfl hb
    | cons y rest => simp [hasMidAux]
  | cons x a' ih =>
    have hne : a' ++ c :: b ≠ [] := by simp
    cases hh : a' ++ c :: b with
    | nil => exact absurd hh hne
    | cons y rest =>
      have : hasMidAux c (x :: (a' ++ c :: b)) = ((x = c) || hasMidAux c (a' ++ c :: b)) := by
        rw [hh]
        rfl
      rw [List.cons_append, this, ih]
      simp

theorem hasMidChar_decomp {c : Char} {a b : Str} (ha : a ≠ []) (hb : b ≠ []) :
    hasMidChar c (a ++ c :: b) = true := by
  cases a with
  | nil => exact absurd rfl ha
  | cons x a' =>
    simp only [List.cons_append, hasMidChar]
    exact hasMidAux_append a' hb

theorem append_cons_inj {c : Char} :
    ∀ {a a' b b' : Str}, a ++ c :: b = a' ++ c :: b' → c ∉ a → c ∉ a' →
      a = a' ∧ b = b'
  | [], [], b, b', h, _, _ => by
      simp only [List.nil_append, List.cons.injEq] at h
      exact ⟨rfl, h.2⟩
  | [], x :: t, b, b', h, hna, hna' => by
      simp only [List.nil_append, List.cons_append, List.cons.injEq] at h
      exact absurd (by rw [h.1]; exact List.mem_cons_self _ _) hna'
  | x :: t, [], b, b', h, hna, hna' => by
      simp only [List.cons_append, List.nil_append, List.cons.injEq] at h
      exact absurd (by rw [← h.1]; exact List.mem_cons_self _ _) hna
  | x :: t, y :: t', b, b', h, hna, hna' => by
      simp only [List.cons_append, List.cons.injEq] at h
      obtain ⟨hxy, ht⟩ := h
      obtain ⟨h1, h2⟩ := append_cons_inj ht
        (fun hm => hna (List.mem_cons_of_mem _ hm))
        (fun hm => hna' (List.mem_cons_of_mem _ hm))
      exact ⟨by rw [hxy, h1], h2⟩

theorem looksLikeXmppJid_eq_true {t : Str} (ht : jsTrim t = t) :
    looksLikeXmppJid t = true ↔
      (t ≠ [] ∧ xmppTargetPattern t = true ∧ (parseJidModel t).isSome = true) := by
  unfold looksLikeXmppJid
  rw [ht]
  by_cases h1 : t = [] <;> by_cases h2 : xmppTargetPattern t = true <;>
    simp [h1, h2]

theorem normalizeXmppFinish_some_inv {t v : Str} (ht : jsTrim t = t)
    (h : normalizeXmppFinish t = some v) :
    xmppTargetPattern t = true ∧
      ∃ j, parseJidModel t = some j ∧ v = bareString j := by
  unfold normalizeXmppFinish at h
  by_cases h1 : t = []
  · simp [h1] at h
  · rw [if_neg h1] at h
    by_cases h2 : looksLikeXmppJid t = true
    · rw [if_neg (by simp [h2])] at h
      obtain ⟨-, hpat, -⟩ := (looksLikeXmppJid_eq_true ht).mp h2
      cases hp : parseJidModel t with
      | none => rw [hp] at h; cases h
      | some j =>
        rw [hp] at h
        cases h
        exact ⟨hpat, j, rfl, rfl⟩
    · rw [if_pos (by simpa using h2)] at h
      cases h

theorem normalizeXmppFinish_trim_inv {u v : Str}
    (h : normalizeXmppFinish (jsTrim u) = some v) :
    ∃ t j, jsTrim t = t ∧ xmppTargetPattern t = true ∧
      parseJidModel t = some j ∧ v = bareString j := by
  obtain ⟨hpat, j, hp, hv⟩ := normalizeXmppFinish_some_inv (jsTrim_idem u) h
  exact ⟨jsTrim u, j, jsTrim_idem u, hpat, hp, hv⟩

theorem normalizeXmppJid_some_inv {x v : Str} (h : normalizeXmppJid x = some v) :
    ∃ t j, jsTrim t = t ∧ xmppTargetPattern t = true ∧
      parseJidModel t = some j ∧ v = bareString j := by
  simp only [normalizeXmppJid] at h
  by_cases h0 : jsTrim x = []
  · rw [if_pos h0] at h
    cases h
  · rw [if_neg h0] at h
    split at h
    · exact normalizeXmppFinish_trim_inv h
    · split at h
      · exact normalizeXmppFinish_trim_inv h
      · split at h
        · exact normalizeXmppFinish_trim_inv h
        · exact normalizeXmppFinish_trim_inv h

theorem parseJidModel_dissect {s : Str} {j : Jid}
    (h : parseJidModel s = some j) :
    ∃ bare : Str,
      (∀ x ∈ bare, x ∈ s) ∧ '/' ∉ bare ∧
      ((∃ lp d, bare = lp ++ '@' :: d ∧ '@' ∉ lp ∧ d ≠ [] ∧
          j.localPart = lp ∧ j.domain = jsToLower d) ∨
       ('@' ∉ bare ∧ bare ≠ [] ∧ j.localPart = [] ∧
          j.domain = jsToLower bare)) := by
  simp only [parseJidModel] at h
  rcases hsr : splitAtFirst '/' s with ⟨bare, resOpt⟩
  rw [hsr] at h
  have hbs : (∀ x ∈ bare, x ∈ s) ∧ '/' ∉ bare := by
    cases resOpt with
    | none =>
      obtain ⟨he, hnm⟩ := splitAtFirst_none hsr
      subst he
      exact ⟨fun x hx => hx, hnm⟩
    | some post =>
      obtain ⟨he, hnm⟩ := splitAtFirst_some hsr
      refine ⟨fun x hx => ?_, hnm⟩
      rw [he]
      exact List.mem_append_left _ hx
  refine ⟨bare, hbs.1, hbs.2, ?_⟩
  rcases hla : splitAtFirst '@' bare with ⟨lp, laOpt⟩
  rw [hla] at h
  cases laOpt with
  | some d =>
    simp only at h
    by_cases hd : d = []
    · rw [if_pos hd] at h
      cases h
    · rw [if_neg hd] at h
      obtain ⟨he, hnm⟩ := splitAtFirst_some hla
      cases h
      exact Or.inl ⟨lp, d, he, hnm, hd, rfl, rfl⟩
  | none =>
    obtain ⟨he, hnm⟩ := splitAtFirst_none hla
    subst he
    simp only at h
    by_cases hb : lp = []
    · rw [if_pos hb] at h
      cases h
    · rw [if_neg hb] at h
      cases h
      exact Or.inr ⟨hnm, hb, rfl, rfl⟩

theorem all_nonWs_sub {l t : Str} (hsub : ∀ x ∈ l, x ∈ t)
    (ht : t.all (fun c => !c.isWhitespace) = true) :
    l.all (fun c => !c.isWhitespace) = true := by
  rw [List.all_eq_true] at *
  exact fun x hx => ht x (hsub x hx)

theorem parseJidModel_eval {v a b : Str} (hnsl : '/' ∉ v)
    (hsplit : splitAtFirst '@' v = (a, some b)) (hb : b ≠ []) :
    parseJidModel v = some ⟨a, jsToLower b, []⟩ := by
  simp only [parseJidModel, splitAtFirst_of_not_mem hnsl, hsplit]
  simp [hb]

/-- C8 (amended): `normalizeXmppJid` is total by construction (it returns
`none` on invalid input instead of throwing) and idempotent on every result
that is still in canonical `local@rest` shape: whenever it returns `some v`
where `v` splits at its first `@` into a nonempty part before and a
nonempty part after, and `v` does not begin (case-insensitively) with one
of the strippable prefixes `xmpp:`, `room:`, `user:`, then
`normalizeXmppJid v = some v`.  Results outside that shape — possible when
the input has a `/` before its first `@`, or hides a second prefix — need
not be fixed points (see the counterexample). -/
theorem normalizeXmppJid_fixed_point {x v a b : Str}
    (h : normalizeXmppJid x = some v)
    (hsplit : splitAtFirst '@' v = (a, some b))
    (ha : a ≠ []) (hb : b ≠ [])
    (hp1 : jsStartsWith "xmpp:".toList (jsToLower v) = false)
    (hp2 : jsStartsWith "room:".toList (jsToLower v) = false)
    (hp3 : jsStartsWith "user:".toList (jsToLower v) = false) :
    normalizeXmppJid v = some v := by
  obtain ⟨t, j, ht, hpat, hpj, hv⟩ := normalizeXmppJid_some_inv h
  obtain ⟨bare, hsub, hnslb, hcases⟩ := parseJidModel_dissect hpj
  have htall : t.all (fun c => !c.isWhitespace) = true := by
    simp only [xmppTargetPattern, Bool.and_eq_true] at hpat
    exact hpat.1
  -- the three usable facts about the produced value
  have hfacts : v.all (fun c => !c.isWhitespace) = true ∧ '/' ∉ v ∧
      (jsToLower v = v ∨
        (v = j.localPart ++ '@' :: j.domain ∧ '@' ∉ j.localPart ∧
          jsToLower j.domain = j.domain)) := by
    rcases hcases with ⟨lp, d, hbare, hlpat, hdne, hjl, hjd⟩ |
        ⟨hnat, hbne, hjl, hjd⟩
    · have hdsub : ∀ x ∈ d, x ∈ t := by
        intro x hx
        exact hsub x (by rw [hbare]; simp [hx])
      have hlpsub : ∀ x ∈ lp, x ∈ t := by
        intro x hx
        exact hsub x (by rw [hbare]; simp [hx])
      have hdns : '/' ∉ d := by
        intro hm
        exact hnslb (by rw [hbare]; simp [hm])
      have hlpns : '/' ∉ lp := by
        intro hm
        exact hnslb (by rw [hbare]; simp [hm])
      by_cases hlpe : lp = []
      · have hv' : v = jsToLower d := by
          rw [hv]
          unfold bareString
          rw [if_pos (by rw [hjl]; exact hlpe), hjd]
        refine ⟨?_, ?_, Or.inl ?_⟩
        · rw [hv']
          exact jsToLower_all_nonWs (all_nonWs_sub hdsub htall)
        · rw [hv']
          intro hm
          exact hdns (mem_slash_jsToLower.mp hm)
        · rw [hv', jsToLower_idem]
      · have hv' : v = lp ++ '@' :: jsToLower d := by
          rw [hv]
          unfold bareString
          rw [if_neg (by rw [hjl]; exact hlpe), hjl, hjd]
        refine ⟨?_, ?_, Or.inr ?_⟩
        · rw [hv']
          simp only [List.all_append, List.all_cons, Bool.and_eq_true]
          refine ⟨all_nonWs_sub hlpsub htall, by decide, ?_⟩
          exact jsToLower_all_nonWs (all_nonWs_sub hdsub htall)
        · rw [hv']
          intro hm
          rcases List.mem_append.mp hm with hm1 | hm2
          · exact hlpns hm1
          · rcases List.mem_cons.mp hm2 with he | hm3
            · cases he
            · exact hdns (mem_slash_jsToLower.mp hm3)
        · refine ⟨by rw [hv', hjl, hjd], by rw [hjl]; exact hlpat, ?_⟩
          rw [hjd, jsToLower_idem]
    · have hv' : v = jsToLower bare := by
        rw [hv]
        unfold bareString
        rw [if_pos hjl, hjd]
      refine ⟨?_, ?_, Or.inl ?_⟩
      · rw [hv']
        exact jsToLower_all_nonWs (all_nonWs_sub hsub htall)
      · rw [hv']
        intro hm
        exact hnslb (mem_slash_jsToLower.mp hm)
      · rw [hv', jsToLower_idem]
  obtain ⟨hvnws, hslashv, hlower⟩ := hfacts
  obtain ⟨hdecomp, hnata⟩ := splitAtFirst_some hsplit
  have trimv : jsTrim v = v := jsTrim_eq_self hvnws
  have hvne : v ≠ [] := by
    rw [hdecomp]
    simp
  -- the suffix after the first at sign is already lowercase
  have hlowb : jsToLower b = b := by
    rcases hlower with hfix | ⟨hshape, hnatlp, hdomfix⟩
    · have hmap : jsToLower a ++ '@' :: jsToLower b = a ++ '@' :: b := by
        have : jsToLower (a ++ '@' :: b) = jsToLower a ++ '@' :: jsToLower b := by
          have h64 : jsCharLower '@' = '@' := by decide
          simp only [jsToLower, List.map_append, List.map_cons, h64]
        rw [← this, ← hdecomp, hfix]
      have hnata' : '@' ∉ jsToLower a := by
        intro hm
        exact hnata (mem_at_jsToLower.mp hm)
      exact (append_cons_inj hmap hnata' hnata).2
    · have heq : a ++ '@' :: b = j.localPart ++ '@' :: j.domain := by
        rw [← hdecomp, hshape]
      obtain ⟨-, hbd⟩ := append_cons_inj heq hnata hnatlp
      rw [hbd]
      exact hdomfix
  have hparse : parseJidModel v = some ⟨a, jsToLower b, []⟩ :=
    parseJidModel_eval hslashv hsplit hb
  have hpatv : xmppTargetPattern v = true := by
    unfold xmppTargetPattern
    rw [hvnws, hdecomp]
    simp [hasMidChar_decomp ha hb]
  have hlook : looksLikeXmppJid v = true := by
    rw [looksLikeXmppJid_eq_true trimv]
    exact ⟨hvne, hpatv, by rw [hparse]; rfl⟩
  have hfin : normalizeXmppFinish v = some v := by
    unfold normalizeXmppFinish
    rw [if_neg hvne, if_neg (by simp [hlook]), hparse]
    show some (bareString ⟨a, jsToLower b, []⟩) = some v
    have hbs : bareString ⟨a, jsToLower b, []⟩ = v := by
      unfold bareString
      simp only [if_neg ha]
      rw [hlowb, hdecomp]
    rw [hbs]
  simp only [normalizeXmppJid]
  rw [trimv, if_neg hvne, hp1, hp2, hp3]
  simpa using hfin

theorem jsSplit_ne_nil (sep : Char) (l : Str) : jsSplit sep l ≠ [] := by
  cases l with
  | nil => simp [jsSplit]
  | cons c rest =>
    unfold jsSplit
    cases hr : jsSplit sep rest with
    | nil => simp
    | cons h t => by_cases hc : c = sep <;> simp [hc]

theorem jsSplit_head (sep : Char) (l : Str) :
    ∃ ts, jsSplit sep l = (splitAtFirst sep l).1 :: ts := by
  induction l with
  | nil => exact ⟨[], rfl⟩
  | cons c rest ih =>
    obtain ⟨ts, hti⟩ := ih
    unfold jsSplit
    rw [hti]
    by_cases hc : c = sep
    · exact ⟨(splitAtFirst sep rest).1 :: ts, by simp [splitAtFirst, hc]⟩
    · exact ⟨ts, by simp [splitAtFirst, hc]⟩

theorem jsSplit_of_not_mem {sep : Char} {l : Str} (h : sep ∉ l) :
    jsSplit sep l = [l] := by
  induction l with
  | nil => rfl
  | cons c rest ih =>
    have hc : c ≠ sep := by
      intro he
      exact h (by simp [he])
    have ih' := ih (fun hm => h (List.mem_cons_of_mem _ hm))
    unfold jsSplit
    rw [ih']
    simp [hc]

theorem jsSplit_cons (sep c : Char) (rest : Str) :
    jsSplit sep (c :: rest) =
      (match jsSplit sep rest with
        | [] => [[]]
        | h :: t => if c = sep then [] :: h :: t else (c :: h) :: t) := rfl

theorem jsSplit_append_cons {sep : Char} {a b : Str} (h : sep ∉ a) :
    jsSplit sep (a ++ sep :: b) = a :: jsSplit sep b := by
  induction a with
  | nil =>
    show jsSplit sep (sep :: b) = [] :: jsSplit sep b
    rw [jsSplit_cons]
    cases hr : jsSplit sep b with
    | nil => exact absurd hr (jsSplit_ne_nil sep b)
    | cons hh tt => simp
  | cons c rest ih =>
    have hc : c ≠ sep := by
      intro he
      exact h (by simp [he])
    have ih' := ih (fun hm => h (List.mem_cons_of_mem _ hm))
    show jsSplit sep (c :: (rest ++ sep :: b)) = (c :: rest) :: jsSplit sep b
    rw [jsSplit_cons, ih']
    simp [hc]

theorem mem_addUnique_self (l : List Str) (x : Str) : x ∈ addUnique l x := by
  unfold addUnique
  by_cases h : l.contains x = true
  · rw [if_pos h]
    simpa using h
  · rw [if_neg h]
    simp

theorem mem_addUnique_of_mem {l : List Str} {y : Str} (x : Str) (h : y ∈ l) :
    y ∈ addUnique l x := by
  unfold addUnique
  by_cases hc : l.contains x = true
  · rw [if_pos hc]
    exact h
  · rw [if_neg hc]
    exact List.mem_append_left _ h

theorem senderBare_mem_candidates (m : XmppInboundMessage)
    (h : m.senderBareJid ≠ []) :
    jsToLower m.senderBareJid ∈ buildXmppAllowlistCandidates m := by
  simp only [buildXmppAllowlistCandidates]
  rw [if_pos h]
  have hs2 : jsToLower m.senderBareJid ∈
      (if m.senderJid ≠ [] then
        addUnique (addUnique [] (jsToLower m.senderBareJid)) (jsToLower m.senderJid)
      else addUnique [] (jsToLower m.senderBareJid)) := by
    split
    · exact mem_addUnique_of_mem _ (mem_addUnique_self _ _)
    · exact mem_addUnique_self _ _
  split
  · split
    · split
      · exact mem_addUnique_of_mem _ hs2
      · exact hs2
    · exact hs2
  · exact hs2

theorem mentionGate_skip_reason (a b c d e f : Bool)
    (h : (resolveXmppMentionGate a b c d e f).shouldSkip = true) :
    (resolveXmppMentionGate a b c d e f).reason = "missing-mention".toList := by
  revert h
  unfold resolveXmppMentionGate
  split
  · intro h
    simp at h
  · split
    · intro h
      simp at h
    · split
      · intro h
        simp at h
      · split
        · intro h
          simp at h
        · intro _
          rfl

theorem pipeline_mentionDrop_reason (env : XmppPipelineEnv)
    (m : XmppInboundMessage) (store : List Str) (r : Str)
    (h : (handleXmppInbound env m store).1 = .mentionDrop r) :
    r = "missing-mention".toList := by
  simp only [handleXmppInbound] at h
  repeat' split at h
  all_goals
    first
    | (simp at h
       done)
    | (rename_i hskip
       have h2 := XmppPipelineOutcome.mentionDrop.inj h
       rw [← h2]
       exact mentionGate_skip_reason _ _ _ _ _ _ hskip)

theorem roomMatch_hasConfiguredRooms (rooms : RoomsMap) (target : Str) :
    (resolveXmppRoomMatch rooms target).hasConfiguredRooms
      = decide (rooms ≠ []) := by
  simp only [resolveXmppRoomMatch]
  split
  · rfl
  · split
    · rename_i r heq
      split at heq
      · rename_i key hkey
        cases hg : roomsGet rooms key with
        | none => rw [hg] at heq; cases heq
        | some mc =>
          rw [hg] at heq
          have heq2 := Option.some.inj heq
          rw [← heq2]
      · cases heq
    · split
      · rfl
      · rfl

theorem roomsGet_of_findCI {rooms : RoomsMap} {targetLower key : Str}
    (h : roomsFindKeyCI rooms targetLower = some key) :
    (roomsGet rooms key).isSome = true := by
  unfold roomsFindKeyCI at h
  cases hf : rooms.find? (fun p => jsToLower p.1 = targetLower) with
  | none => rw [hf] at h; cases h
  | some p =>
    rw [hf] at h
    have h2 := Option.some.inj h
    subst h2
    unfold roomsGet
    have hmem : p ∈ rooms := List.mem_of_find?_eq_some hf
    cases hq : rooms.find? (fun q : Str × XmppRoomConfig => q.1 = p.1) with
    | some q => rfl
    | none =>
      have hnone := List.find?_eq_none.mp hq p hmem
      simp at hnone

/-! ## Claims -/

/-- C1: the group access gate drops a group message when `groupPolicy` is
`disabled`; under `allowlist` with no configured rooms it drops with a
reason containing `no rooms configured` (in particular, with an empty rooms
map every group message is dropped); under `allowlist` with no room match —
the target matching neither an exact room key, a case-insensitive room key,
nor the wildcard `*` (the first conjunct characterizes the match) — it
drops with reason `not allowlisted`; a matched room or wildcard config with
`enabled = false` drops; otherwise it allows with reason `open` under the
open policy, else `allowlisted`.  The final conjunct ties the gate to the
pipeline: a group message whose gate denies is dropped at the group-access
stage with the gate's reason. -/
theorem xmpp_group_access_gate_spec (rooms : RoomsMap) (target : Str)
    (policy : Option GroupPolicy) :
    ((resolveXmppRoomMatch rooms target).allowed =
      ((roomsGet rooms target).isSome
        || (roomsFindKeyCI rooms (jsToLower target)).isSome
        || (roomsGet rooms ['*']).isSome)) ∧
    (policy = some .disabled →
      resolveXmppGroupAccessGate policy (resolveXmppRoomMatch rooms target)
        = ⟨false, "groupPolicy=disabled".toList⟩) ∧
    (policy.getD .allowlist = .allowlist → rooms = [] →
      (resolveXmppGroupAccessGate policy
        (resolveXmppRoomMatch rooms target)).allowed = false ∧
      jsIncludes "no rooms configured".toList
        (resolveXmppGroupAccessGate policy
          (resolveXmppRoomMatch rooms target)).reason = true) ∧
    (policy.getD .allowlist = .allowlist → rooms ≠ [] →
      (resolveXmppRoomMatch rooms target).allowed = false →
      resolveXmppGroupAccessGate policy (resolveXmppRoomMatch rooms target)
        = ⟨false, "not allowlisted".toList⟩) ∧
    ((roomEnabledIsFalse (resolveXmppRoomMatch rooms target).roomConfig
        || roomEnabledIsFalse
          (resolveXmppRoomMatch rooms target).wildcardConfig) = true →
      (resolveXmppGroupAccessGate policy
        (resolveXmppRoomMatch rooms target)).allowed = false) ∧
    (policy.getD .allowlist ≠ .disabled →
      (policy.getD .allowlist = .allowlist →
        rooms ≠ [] ∧ (resolveXmppRoomMatch rooms target).allowed = true) →
      (roomEnabledIsFalse (resolveXmppRoomMatch rooms target).roomConfig
        || roomEnabledIsFalse
          (resolveXmppRoomMatch rooms target).wildcardConfig) = false →
      resolveXmppGroupAccessGate policy (resolveXmppRoomMatch rooms target)
        = ⟨true, if policy.getD .allowlist = .gOpen then "open".toList
            else "allowlisted".toList⟩) ∧
    (∀ (env : XmppPipelineEnv) (m : XmppInboundMessage) (store : List Str),
      m.isGroup = true → jsTrim m.text ≠ [] →
      (resolveXmppGroupAccessGate
        (some (env.groupPolicy.getD (env.defaultGroupPolicy.getD .allowlist)))
        (resolveXmppRoomMatch env.rooms m.target)).allowed = false →
      (handleXmppInbound env m store).1 = .groupAccessDrop
        (resolveXmppGroupAccessGate
          (some (env.groupPolicy.getD (env.defaultGroupPolicy.getD .allowlist)))
          (resolveXmppRoomMatch env.rooms m.target)).reason) := by
  refine ⟨?_, ?_, ?_, ?_, ?_, ?_, ?_⟩
  · simp only [resolveXmppRoomMatch]
    cases h1 : roomsGet rooms target with
    | some direct => simp
    | none =>
      cases h2 : roomsFindKeyCI rooms (jsToLower target) with
      | some key =>
        have h3 := roomsGet_of_findCI h2
        cases h4 : roomsGet rooms key with
        | none => rw [h4] at h3; simp at h3
        | some mc => simp [h4]
      | none =>
        cases h5 : roomsGet rooms ['*'] with
        | some w => simp [h5]
        | none => simp [h5]
  · intro hp
    subst hp
    rfl
  · intro hp hr
    subst hr
    have hrm : resolveXmppRoomMatch [] target =
        { allowed := false, hasConfiguredRooms := false } := rfl
    rw [hrm]
    unfold resolveXmppGroupAccessGate
    rw [hp]
    refine ⟨by rfl, by decide⟩
  · intro hp hr hall
    unfold resolveXmppGroupAccessGate
    rw [hp, hall, roomMatch_hasConfiguredRooms]
    simp [hr]
  · intro he
    simp only [resolveXmppGroupAccessGate]
    rw [if_pos he]
    split
    · rfl
    · split
      · rfl
      · split
        · rfl
        · rfl
  · intro h1 h2 h3
    unfold resolveXmppGroupAccessGate
    cases hp : policy.getD .allowlist with
    | disabled => exact absurd hp h1
    | allowlist =>
      obtain ⟨hr, hall⟩ := h2 hp
      rw [hall, roomMatch_hasConfiguredRooms, h3]
      simp [hr]
    | gOpen =>
      rw [h3]
      simp
  · intro env m store hg hb hal
    simp only [handleXmppInbound]
    rw [if_neg hb, if_pos (And.intro hg hal)]

/-- C1 witness: with `groupPolicy = allowlist` and an empty rooms map the
gate denies with a reason containing `no rooms configured`. -/
theorem xmpp_group_access_gate_spec_witness :
    (resolveXmppGroupAccessGate (some .allowlist)
      (resolveXmppRoomMatch [] "r@conference.example".toList)).allowed
        = false ∧
    jsIncludes "no rooms configured".toList
      (resolveXmppGroupAccessGate (some .allowlist)
        (resolveXmppRoomMatch [] "r@conference.example".toList)).reason
        = true :=
  (xmpp_group_access_gate_spec [] "r@conference.example".toList
    (some .allowlist)).2.2.1 rfl rfl

/-- C3: for a group message at the mention stage, `requireMention` is
resolved from the matched room config, else the wildcard config, defaulting
to `true`; the message proceeds (the gate does not skip) exactly when
`requireMention` is false, or the body matches a configured mention pattern
or the account's localpart as a word (case-insensitively, trailing `:` or
`,` optional — the regex's `[:,]?` suffix never constrains the match), or a
control command is present, text commands are allowed, and the sender is
authorized for commands; otherwise it is dropped and every mention-stage
drop of the pipeline carries the reason `missing-mention`.  In particular,
with `requireMention = true` an authorized command message proceeds without
any mention. -/
theorem xmpp_mention_gate_spec (roomConfig wildcardConfig : Option XmppRoomConfig)
    (mentionPatternHit : Bool) (rawBody botJid : Str)
    (hasCmd allowCmds cmdAuth : Bool) :
    ((roomConfig.bind (fun c => c.requireMention)).isSome = true →
      resolveXmppRequireMention roomConfig wildcardConfig
        = (roomConfig.bind (fun c => c.requireMention)).getD true) ∧
    (roomConfig.bind (fun c => c.requireMention) = none →
      resolveXmppRequireMention roomConfig wildcardConfig
        = (wildcardConfig.bind (fun c => c.requireMention)).getD true) ∧
    ((resolveXmppMentionGate true
        (resolveXmppRequireMention roomConfig wildcardConfig)
        (mentionPatternHit || ((splitAtFirst '@' botJid).1 ≠ [] &&
          explicitMentionTest (splitAtFirst '@' botJid).1 rawBody))
        hasCmd allowCmds cmdAuth).shouldSkip = false ↔
      (resolveXmppRequireMention roomConfig wildcardConfig = false ∨
        (mentionPatternHit || ((splitAtFirst '@' botJid).1 ≠ [] &&
          explicitMentionTest (splitAtFirst '@' botJid).1 rawBody)) = true ∨
        (hasCmd = true ∧ allowCmds = true ∧ cmdAuth = true))) ∧
    (∀ (env : XmppPipelineEnv) (m : XmppInboundMessage) (store : List Str)
        (r : Str),
      (handleXmppInbound env m store).1 = .mentionDrop r →
      r = "missing-mention".toList) ∧
    (resolveXmppRequireMention roomConfig wildcardConfig = true →
      hasCmd = true → allowCmds = true → cmdAuth = true →
      (resolveXmppMentionGate true
        (resolveXmppRequireMention roomConfig wildcardConfig)
        (mentionPatternHit || ((splitAtFirst '@' botJid).1 ≠ [] &&
          explicitMentionTest (splitAtFirst '@' botJid).1 rawBody))
        hasCmd allowCmds cmdAuth).shouldSkip = false) := by
  refine ⟨?_, ?_, ?_, pipeline_mentionDrop_reason, ?_⟩
  · intro h
    unfold resolveXmppRequireMention
    cases hrc : roomConfig.bind (fun c => c.requireMention) with
    | none => rw [hrc] at h; simp at h
    | some b => simp [hrc]
  · intro h
    unfold resolveXmppRequireMention
    rw [h]
    cases hwc : wildcardConfig.bind (fun c => c.requireMention) <;> simp [hwc]
  · set rm := resolveXmppRequireMention roomConfig wildcardConfig with hrm
    set wm := (mentionPatternHit || ((splitAtFirst '@' botJid).1 ≠ [] &&
      explicitMentionTest (splitAtFirst '@' botJid).1 rawBody)) with hwm
    unfold resolveXmppMentionGate
    cases rm <;> cases wm <;> cases hasCmd <;> cases allowCmds <;>
      cases cmdAuth <;> simp
  · intro h1 h2 h3 h4
    set wm := (mentionPatternHit || ((splitAtFirst '@' botJid).1 ≠ [] &&
      explicitMentionTest (splitAtFirst '@' botJid).1 rawBody)) with hwm
    unfold resolveXmppMentionGate
    rw [h1, h2, h3, h4]
    cases wm <;> simp

/-- C3 witness: with `requireMention = true` from the room config, a control
command that is allowed and authorized proceeds without any mention. -/
theorem xmpp_mention_gate_spec_witness :
    (resolveXmppMentionGate true
      (resolveXmppRequireMention
        (some { requireMention := some true }) none)
      (false || ((splitAtFirst '@' "agent@ex".toList).1 ≠ [] &&
        explicitMentionTest (splitAtFirst '@' "agent@ex".toList).1
          "hello".toList))
      true true true).shouldSkip = false :=
  (xmpp_mention_gate_spec (some { requireMention := some true }) none
    false "hello".toList "agent@ex".toList true true true).2.2.2.2
    (by decide) rfl rfl rfl

/-- C2: for a direct message (with nonempty body): `dmPolicy = disabled`
drops it; `dmPolicy = open` dispatches it; otherwise the sender is matched
against the effective DM allowlist (account `allowFrom` plus the pairing
store, `*` matching anyone — see `resolveXmppAllowlistMatch`).  On a miss
under `pairing` the pipeline upserts the pairing request for channel `xmpp`
with the lowercased sender bare JID, attempts the pairing reply to the
sender exactly when the store reports `created = true`, and drops without
dispatch whether or not the reply delivery succeeds; run again for the same
sender the upsert finds the id present, so no second reply is attempted.
On a miss under `allowlist` the message is dropped silently (no upsert, no
reply); on a hit the message proceeds to dispatch. -/
theorem xmpp_dm_gate_spec (env : XmppPipelineEnv) (m : XmppInboundMessage)
    (store : List Str)
    (hg : m.isGroup = false) (hb : jsTrim m.text ≠ []) :
    (env.dmPolicy.getD .pairing = .disabled →
      handleXmppInbound env m store = (.dmDisabledDrop, store)) ∧
    (env.dmPolicy.getD .pairing = .dmOpen →
      ∃ wm, handleXmppInbound env m store
        = (.dispatched wm env.commandAuthorizedB, store)) ∧
    (env.dmPolicy.getD .pairing = .pairing →
      (resolveXmppAllowlistMatch
        ((normalizeXmppAllowlist env.configAllowFrom
          ++ normalizeXmppAllowlist env.storeAllowFrom).filter
            (fun e => e ≠ [])) m).allowed = false →
      handleXmppInbound env m store
        = (.dmMissDrop (some (jsToLower m.senderBareJid))
            (if !store.contains (jsToLower m.senderBareJid)
              then some m.senderBareJid else none)
            (!store.contains (jsToLower m.senderBareJid) && env.replySendOk),
          if !store.contains (jsToLower m.senderBareJid)
            then store ++ [jsToLower m.senderBareJid] else store)) ∧
    (env.dmPolicy.getD .pairing = .pairing →
      (resolveXmppAllowlistMatch
        ((normalizeXmppAllowlist env.configAllowFrom
          ++ normalizeXmppAllowlist env.storeAllowFrom).filter
            (fun e => e ≠ [])) m).allowed = false →
      (handleXmppInbound env m (handleXmppInbound env m store).2).1
        = .dmMissDrop (some (jsToLower m.senderBareJid)) none false) ∧
    (env.dmPolicy.getD .pairing = .allowlist →
      (resolveXmppAllowlistMatch
        ((normalizeXmppAllowlist env.configAllowFrom
          ++ normalizeXmppAllowlist env.storeAllowFrom).filter
            (fun e => e ≠ [])) m).allowed = false →
      handleXmppInbound env m store = (.dmMissDrop none none false, store)) ∧
    (env.dmPolicy.getD .pairing ≠ .disabled →
      (resolveXmppAllowlistMatch
        ((normalizeXmppAllowlist env.configAllowFrom
          ++ normalizeXmppAllowlist env.storeAllowFrom).filter
            (fun e => e ≠ [])) m).allowed = true →
      ∃ wm, handleXmppInbound env m store
        = (.dispatched wm env.commandAuthorizedB, store)) := by
  have hpair : ∀ (st : List Str),
      env.dmPolicy.getD .pairing = .pairing →
      (resolveXmppAllowlistMatch
        ((normalizeXmppAllowlist env.configAllowFrom
          ++ normalizeXmppAllowlist env.storeAllowFrom).filter
            (fun e => e ≠ [])) m).allowed = false →
      handleXmppInbound env m st
        = (.dmMissDrop (some (jsToLower m.senderBareJid))
            (if !st.contains (jsToLower m.senderBareJid)
              then some m.senderBareJid else none)
            (!st.contains (jsToLower m.senderBareJid) && env.replySendOk),
          if !st.contains (jsToLower m.senderBareJid)
            then st ++ [jsToLower m.senderBareJid] else st) := by
    intro st h1 h2
    simp only [handleXmppInbound]
    rw [if_neg hb, if_neg (by simp [hg]), if_neg (by simp [hg]),
        if_neg (by simp [h1]), if_pos (And.intro hg (And.intro h1 h2))]
  refine ⟨?_, ?_, hpair store, ?_, ?_, ?_⟩
  · intro h1
    simp only [handleXmppInbound]
    rw [if_neg hb, if_neg (by simp [hg]), if_neg (by simp [hg]),
        if_pos (And.intro hg h1)]
  · intro h1
    refine ⟨env.mentionPatternHit || ((splitAtFirst '@' env.accountJid).1 ≠ []
      && explicitMentionTest (splitAtFirst '@' env.accountJid).1
        (jsTrim m.text)), ?_⟩
    simp only [handleXmppInbound]
    rw [if_neg hb, if_neg (by simp [hg]), if_neg (by simp [hg]),
        if_neg (by simp [h1]), if_neg (by simp [h1]), if_neg (by simp [h1]),
        if_neg (by simp [hg]),
        if_neg (by simp [resolveXmppMentionGate, hg])]
  · intro h1 h2
    rw [hpair store h1 h2]
    rw [hpair _ h1 h2]
    have hcont : (if !store.contains (jsToLower m.senderBareJid)
        then store ++ [jsToLower m.senderBareJid]
        else store).contains (jsToLower m.senderBareJid) = true := by
      by_cases hc : jsToLower m.senderBareJid ∈ store
      · simp [hc]
      · simp [hc]
    rw [hcont]
    simp
  · intro h1 h2
    simp only [handleXmppInbound]
    rw [if_neg hb, if_neg (by simp [hg]), if_neg (by simp [hg]),
        if_neg (by simp [h1]), if_neg (by simp [h1]),
        if_pos (And.intro hg (And.intro h1 h2))]
  · intro h1 h2
    refine ⟨env.mentionPatternHit || ((splitAtFirst '@' env.accountJid).1 ≠ []
      && explicitMentionTest (splitAtFirst '@' env.accountJid).1
        (jsTrim m.text)), ?_⟩
    simp only [handleXmppInbound]
    rw [if_neg hb, if_neg (by simp [hg]), if_neg (by simp [hg]),
        if_neg (fun hc => h1 hc.2),
        if_neg (by
          intro hc
          rw [hc.2.2] at h2
          exact absurd h2 (by decide)),
        if_neg (by
          intro hc
          rw [hc.2.2] at h2
          exact absurd h2 (by decide)),
        if_neg (by simp [hg]),
        if_neg (by simp [resolveXmppMentionGate, hg])]

/-- C2 witness: under `dmPolicy = pairing` with empty allowlists, a first DM
from `bob@ex` upserts `bob@ex`, attempts one pairing reply, and is dropped;
the second DM from the same sender attempts no reply and is also dropped. -/
theorem xmpp_dm_gate_spec_witness :
    (handleXmppInbound { accountJid := "agent@localhost".toList }
      { messageId := "m1".toList, target := "bob@ex".toList,
        senderJid := "bob@ex/home".toList, senderBareJid := "bob@ex".toList,
        text := "hi".toList, timestamp := 0, isGroup := false } []
      = (.dmMissDrop (some "bob@ex".toList) (some "bob@ex".toList) true,
          ["bob@ex".toList])) ∧
    ((handleXmppInbound { accountJid := "agent@localhost".toList }
      { messageId := "m1".toList, target := "bob@ex".toList,
        senderJid := "bob@ex/home".toList, senderBareJid := "bob@ex".toList,
        text := "hi".toList, timestamp := 0, isGroup := false }
      (handleXmppInbound { accountJid := "agent@localhost".toList }
        { messageId := "m1".toList, target := "bob@ex".toList,
          senderJid := "bob@ex/home".toList, senderBareJid := "bob@ex".toList,
          text := "hi".toList, timestamp := 0, isGroup := false } []).2).1
      = .dmMissDrop (some "bob@ex".toList) none false) := by
  constructor
  · have h := (xmpp_dm_gate_spec { accountJid := "agent@localhost".toList }
      { messageId := "m1".toList, target := "bob@ex".toList,
        senderJid := "bob@ex/home".toList, senderBareJid := "bob@ex".toList,
        text := "hi".toList, timestamp := 0, isGroup := false } []
      rfl (by decide)).2.2.1 rfl (by decide)
    rw [h]
    decide
  · exact (xmpp_dm_gate_spec { accountJid := "agent@localhost".toList }
      { messageId := "m1".toList, target := "bob@ex".toList,
        senderJid := "bob@ex/home".toList, senderBareJid := "bob@ex".toList,
        text := "hi".toList, timestamp := 0, isGroup := false } []
      rfl (by decide)).2.2.2.1 rfl (by decide)

/-- C4 (amended): an inbound message built from a groupchat stanza whose
`from` contains exactly one `/` (the occupant form `room/nickname`) has the
room part as `target` and `senderBareJid`, the nickname set, and
`senderJid = target ++ "/" ++ senderNickname`; a non-groupchat stanza always
yields `target = senderBareJid`.  (A groupchat `from` without `/`, or with a
`/` inside the nickname, escapes the claimed invariant — see the
counterexample.) -/
theorem xmpp_inbound_target_invariants :
    (∀ (fromJid typ roomPart nick : Str), typ = "groupchat".toList →
      fromJid = roomPart ++ '/' :: nick → '/' ∉ roomPart → '/' ∉ nick →
      (resolveXmppInboundTarget fromJid typ).isGroup = true ∧
      (resolveXmppInboundTarget fromJid typ).target = roomPart ∧
      (resolveXmppInboundTarget fromJid typ).senderBareJid = roomPart ∧
      (resolveXmppInboundTarget fromJid typ).senderNickname = some nick ∧
      (resolveXmppInboundTarget fromJid typ).senderJid
        = (resolveXmppInboundTarget fromJid typ).target ++ '/' :: nick) ∧
    (∀ (fromJid typ : Str), typ ≠ "groupchat".toList →
      (resolveXmppInboundTarget fromJid typ).target
        = (resolveXmppInboundTarget fromJid typ).senderBareJid) := by
  constructor
  · intro fromJid typ roomPart nick ht hf h1 h2
    subst ht hf
    have hsplit : jsSplit '/' (roomPart ++ '/' :: nick) = [roomPart, nick] := by
      rw [jsSplit_append_cons h1, jsSplit_of_not_mem h2]
    refine ⟨?_, ?_, ?_, ?_, ?_⟩ <;>
      simp [resolveXmppInboundTarget, hsplit]
  · intro fromJid typ h
    have h' : typ ≠ ['g', 'r', 'o', 'u', 'p', 'c', 'h', 'a', 't'] := h
    simp [resolveXmppInboundTarget, h']

/-- C4 witness: the amended invariant at the occupant JID
`room@conference.example/alice`. -/
theorem xmpp_inbound_target_invariants_witness :
    (resolveXmppInboundTarget "room@conference.example/alice".toList
        "groupchat".toList).isGroup = true ∧
    (resolveXmppInboundTarget "room@conference.example/alice".toList
        "groupchat".toList).target = "room@conference.example".toList ∧
    (resolveXmppInboundTarget "room@conference.example/alice".toList
        "groupchat".toList).senderBareJid = "room@conference.example".toList ∧
    (resolveXmppInboundTarget "room@conference.example/alice".toList
        "groupchat".toList).senderNickname = some "alice".toList ∧
    (resolveXmppInboundTarget "room@conference.example/alice".toList
        "groupchat".toList).senderJid
      = (resolveXmppInboundTarget "room@conference.example/alice".toList
          "groupchat".toList).target ++ '/' :: "alice".toList :=
  xmpp_inbound_target_invariants.1 "room@conference.example/alice".toList
    "groupchat".toList "room@conference.example".toList "alice".toList
    rfl (by decide) (by decide) (by decide)

/-- C4 counterexample: a groupchat stanza from the bare room JID (no `/`)
produces `isGroup = true` with `senderNickname` unset, so the claim that
every group message has `senderNickname` set and
`senderJid = target ++ "/" ++ senderNickname` fails. -/
theorem xmpp_inbound_target_nickname_cex :
    (resolveXmppInboundTarget "room@conference.example".toList
        "groupchat".toList).isGroup = true ∧
    (resolveXmppInboundTarget "room@conference.example".toList
        "groupchat".toList).senderNickname = none := by decide

/-- C5: a message event whose sender bare JID equals the account's bare JID
is dropped before the inbound pipeline: no inbound activity is recorded and
no message value is handed to `handleXmppInbound`. -/
theorem xmpp_self_message_dropped (accountBareJid : Str) (now : Int)
    (freshId : Str) (event : XmppMessageEvent)
    (h : normalizeXmppBareJid event.fromJid = accountBareJid) :
    monitorOnXmppMessage accountBareJid now freshId event
      = { recordedInbound := false, pipelineMessage := none } := by
  unfold monitorOnXmppMessage
  rw [if_pos h]

/-- C5 witness: a self-message from another resource of the account is
dropped with no recorded activity. -/
theorem xmpp_self_message_dropped_witness :
    normalizeXmppBareJid "agent@localhost/phone".toList
      = "agent@localhost".toList ∧
    monitorOnXmppMessage "agent@localhost".toList 0 "fresh1".toList
      { fromJid := "agent@localhost/phone".toList, toJid := [],
        body := "hi".toList, typ := "chat".toList }
      = { recordedInbound := false, pipelineMessage := none } :=
  ⟨by decide, xmpp_self_message_dropped _ _ _ _ (by decide)⟩

/-- C9: a groupchat inbound message gets `senderBareJid` equal to the room's
bare JID (the portion of the stanza's `from` before the first `/`), not the
occupant's account JID, and `senderResource` stays unset; consequently the
allowlist candidate set built for the message contains the (lowercased) room
JID itself. -/
theorem xmpp_group_sender_bare_is_room (event : XmppMessageEvent)
    (accountBareJid : Str) (now : Int) (freshId : Str)
    (ht : event.typ = "groupchat".toList)
    (hs : normalizeXmppBareJid event.fromJid ≠ accountBareJid)
    (hr : (splitAtFirst '/' event.fromJid).1 ≠ []) :
    ∃ m, (monitorOnXmppMessage accountBareJid now freshId event).pipelineMessage
        = some m ∧
      m.isGroup = true ∧
      m.senderBareJid = (splitAtFirst '/' event.fromJid).1 ∧
      m.senderResource = none ∧
      jsToLower m.senderBareJid ∈ buildXmppAllowlistCandidates m := by
  obtain ⟨ts, hts⟩ := jsSplit_head '/' event.fromJid
  have hT : resolveXmppInboundTarget event.fromJid event.typ =
      { isGroup := true, target := (splitAtFirst '/' event.fromJid).1,
        senderJid := event.fromJid,
        senderBareJid := (splitAtFirst '/' event.fromJid).1,
        senderNickname := (jsSplit '/' event.fromJid).get? 1 } := by
    simp only [resolveXmppInboundTarget]
    rw [if_pos ht, hts]
    rfl
  unfold monitorOnXmppMessage
  rw [if_neg hs, hT]
  refine ⟨_, rfl, rfl, rfl, rfl, ?_⟩
  exact senderBare_mem_candidates _ hr

/-- C9 witness: the room JID `room@conference.example` is itself an
allowlist candidate of its groupchat messages. -/
theorem xmpp_group_sender_bare_is_room_witness :
    ∃ m, (monitorOnXmppMessage "agent@localhost".toList 5 "fresh2".toList
        { fromJid := "room@conference.example/bob".toList, toJid := [],
          body := "hello".toList,
          typ := "groupchat".toList }).pipelineMessage = some m ∧
      m.isGroup = true ∧
      m.senderBareJid = (splitAtFirst '/'
        "room@conference.example/bob".toList).1 ∧
      m.senderResource = none ∧
      jsToLower m.senderBareJid ∈ buildXmppAllowlistCandidates m :=
  xmpp_group_sender_bare_is_room
    { fromJid := "room@conference.example/bob".toList, toJid := [],
      body := "hello".toList, typ := "groupchat".toList }
    "agent@localhost".toList 5 "fresh2".toList rfl (by decide) (by decide)

/-- C8 witness: the canonical output `Alice@ex.com` (produced from
`Alice@EX.com/home`) is a fixed point of `normalizeXmppJid`. -/
theorem normalizeXmppJid_fixed_point_witness :
    normalizeXmppJid "Alice@ex.com".toList = some ("Alice@ex.com".toList) :=
  normalizeXmppJid_fixed_point
    (show normalizeXmppJid "Alice@EX.com/home".toList
      = some ("Alice@ex.com".toList) from by decide)
    (show splitAtFirst '@' "Alice@ex.com".toList
      = ("Alice".toList, some ("ex.com".toList)) from by decide)
    (by decide) (by decide) (by decide) (by decide) (by decide)

/-- C8 counterexample: `normalizeXmppJid` is not idempotent as claimed — on
`a/b@c` (a `/` before the first `@`) it returns `a`, which does not even
look like a JID, so re-normalizing yields `none` instead of `some "a"`. -/
theorem normalizeXmppJid_not_idempotent_cex :
    normalizeXmppJid "a/b@c".toList = some ("a".toList) ∧
    normalizeXmppJid "a".toList = none := by decide

theorem sendMessageXmppPlan_ok_inv {convert : Str → Str}
    {toArg text : Str} {replyTo optsTarget : Option Str} {p : SendPlan}
    (hp : sendMessageXmppPlan convert toArg text replyTo optsTarget = .ok p) :
    resolveTarget toArg optsTarget = .ok p.target ∧
    p.messageType = (if isRoomJid p.target then .groupchat else .chat) ∧
    p.payload = (match replyTo with
      | some r => convert (jsTrim text) ++ "\n\n[reply:".toList ++ r ++ "]".toList
      | none => convert (jsTrim text)) := by
  cases replyTo with
  | none =>
    simp only [sendMessageXmppPlan] at hp
    cases hres : resolveTarget toArg optsTarget with
    | error e => rw [hres] at hp; cases hp
    | ok tgt =>
      rw [hres] at hp
      simp only at hp
      by_cases hemp : jsTrim (convert (jsTrim text)) = []
      · rw [if_pos hemp] at hp
        cases hp
      · rw [if_neg hemp] at hp
        have hinv := Except.ok.inj hp
        subst hinv
        exact ⟨rfl, rfl, rfl⟩
  | some r =>
    simp only [sendMessageXmppPlan] at hp
    cases hres : resolveTarget toArg optsTarget with
    | error e => rw [hres] at hp; cases hp
    | ok tgt =>
      rw [hres] at hp
      simp only at hp
      by_cases hemp : jsTrim (convert (jsTrim text)
          ++ "\n\n[reply:".toList ++ r ++ "]".toList) = []
      · rw [if_pos hemp] at hp
        cases hp
      · rw [if_neg hemp] at hp
        have hinv := Except.ok.inj hp
        subst hinv
        exact ⟨rfl, rfl, rfl⟩

/-- C6: `sendMessageXmpp` resolves and normalizes its target (`to`
argument first, then the `target` option) and fails with `Invalid XMPP
target` when neither normalizes to a valid JID; a `replyTo` id appends the
textual `\n\n[reply:<id>]` marker to the converted body; and it sends with
message type `groupchat` exactly when `isRoomJid` holds of the resolved
target — e.g. `foo@conference.example` gets `groupchat` and
`alice@example.com` gets `chat`. -/
theorem xmpp_send_message_spec (convert : Str → Str) (toArg text : Str)
    (replyTo optsTarget : Option Str) :
    (normalizeXmppJid toArg = none →
      normalizeXmppJid (optsTarget.getD []) = none →
      sendMessageXmppPlan convert toArg text replyTo optsTarget
        = .error ("Invalid XMPP target: ".toList ++ toArg)) ∧
    (∀ r p, replyTo = some r →
      sendMessageXmppPlan convert toArg text replyTo optsTarget = .ok p →
      p.payload = convert (jsTrim text)
        ++ "\n\n[reply:".toList ++ r ++ "]".toList) ∧
    (∀ p, sendMessageXmppPlan convert toArg text replyTo optsTarget = .ok p →
      (p.messageType = .groupchat ↔ isRoomJid p.target = true)) ∧
    (∀ p, sendMessageXmppPlan convert toArg text replyTo optsTarget = .ok p →
      resolveTarget toArg optsTarget = .ok p.target) ∧
    (sendMessageXmppPlan (fun s => s) "foo@conference.example".toList
      "x".toList none none
      = .ok ⟨"foo@conference.example".toList, .groupchat, "x".toList⟩) ∧
    (sendMessageXmppPlan (fun s => s) "alice@example.com".toList
      "x".toList none none
      = .ok ⟨"alice@example.com".toList, .chat, "x".toList⟩) := by
  refine ⟨?_, ?_, ?_, ?_, by rfl, by rfl⟩
  · intro h1 h2
    simp only [sendMessageXmppPlan, resolveTarget,
      normalizeXmppMessagingTarget]
    rw [h1, h2]
  · intro r p hr hp
    subst hr
    exact (sendMessageXmppPlan_ok_inv hp).2.2
  · intro p hp
    rw [(sendMessageXmppPlan_ok_inv hp).2.1]
    by_cases hroom : isRoomJid p.target = true <;> simp [hroom]
  · intro p hp
    exact (sendMessageXmppPlan_ok_inv hp).1

/-- C6 witness: with no valid `to` and no `target` option the send fails
with the `Invalid XMPP target` error. -/
theorem xmpp_send_message_spec_witness :
    sendMessageXmppPlan (fun s => s) "not a jid".toList "x".toList none none
      = .error ("Invalid XMPP target: ".toList ++ "not a jid".toList) :=
  (xmpp_send_message_spec (fun s => s) "not a jid".toList "x".toList
    none none).1 (by decide) (by decide)

/-- C7 (amended): `connectXmppClient` resolves the connect timeout as
`connectTimeoutMs || 15000` (default 15000 ms) and the status probe passes
`timeoutMs ?? 8000`; when the timeout expires the attempt fails with the
transport error `XMPP connection timeout` and `start` is called exactly
once (no internal retry) — but the pending start is NOT cancelled: no
`stop` is issued on the timeout path, only the external abort signal
triggers `stop`. -/
theorem xmpp_connect_timeout_spec :
    resolveConnectTimeoutMs none = 15000 ∧
    (∀ v : Int, v ≠ 0 → resolveConnectTimeoutMs (some v) = v) ∧
    probeConnectTimeoutMs none = 8000 ∧
    (∀ o a, resolveConnectTimeoutMs o > 0 →
      (connectXmppAttempt o none a).outcome
        = some (.error "XMPP connection timeout".toList)) ∧
    (∀ o s a, (connectXmppAttempt o s a).startCalls = 1) ∧
    (∀ o s a, (connectXmppAttempt o s a).stopInvoked = a) := by
  refine ⟨rfl, ?_, rfl, ?_, fun o s a => rfl, fun o s a => rfl⟩
  · intro v hv
    simp [resolveConnectTimeoutMs, hv]
  · intro o a hpos
    simp only [connectXmppAttempt]
    rw [if_pos hpos]

/-- C7 witness: with the probe's 8000 ms timeout and a start that never
settles, the attempt fails with the transport timeout error. -/
theorem xmpp_connect_timeout_spec_witness :
    (connectXmppAttempt (some 8000) none false).outcome
      = some (.error "XMPP connection timeout".toList) :=
  xmpp_connect_timeout_spec.2.2.2.1 (some 8000) false (by decide)

/-- C7 counterexample: on timeout expiry the connect attempt fails with the
transport error, yet no `stop` reaches the underlying client
(`stopInvoked = false` without an abort signal), refuting the claim that
the pending start is cancelled. -/
theorem xmpp_connect_timeout_no_cancel_cex :
    (connectXmppAttempt (some 8000) none false).outcome
      = some (.error "XMPP connection timeout".toList) ∧
    (connectXmppAttempt (some 8000) none false).stopInvoked = false ∧
    (connectXmppAttempt (some 8000) none false).startCalls = 1 :=
  ⟨rfl, rfl, rfl⟩

/-- C10: the live-client reply path of `deliverXmppReply` selects
`groupchat` exactly when the target contains the substring `@conference.`
or `@muc.`; this differs from `isRoomJid`: `room@chat.muc.example` is a
room for `isRoomJid` (so `sendMessageXmpp` would choose `groupchat`) yet
the live-client path sends it as `chat`. -/
theorem xmpp_deliver_reply_type_spec :
    (∀ t : Str, deliverXmppReplyMessageType t = .groupchat ↔
      (jsIncludes "@conference.".toList t
        || jsIncludes "@muc.".toList t) = true) ∧
    isRoomJid "room@chat.muc.example".toList = true ∧
    deliverXmppReplyMessageType "room@chat.muc.example".toList = .chat ∧
    sendMessageXmppPlan (fun s => s) "room@chat.muc.example".toList
      "x".toList none none
      = .ok ⟨"room@chat.muc.example".toList, .groupchat, "x".toList⟩ := by
  refine ⟨?_, by decide, by decide, by rfl⟩
  intro t
  unfold deliverXmppReplyMessageType
  split <;> simp_all

end OpenclawXmpp
